import Mathlib

/-!
Verification of the Signal group-identity resolution and membership-gating
subsystem (`src/signal/groups.ts`).

The module state (directory snapshot cache and membership decision cache) is
modelled as an explicit `GroupsState` record threaded through each operation.
The JSON-RPC round trip is modelled by passing the response the daemon would
produce (`Except Unit RpcRaw`, where `Except.error` is a transport failure)
into each operation; every operation additionally reports how many RPC calls
it issued.  The two collaborator functions imported by the module
(`parseSignalAllowEntry` and `normalizeE164`) are taken as opaque function
parameters, exactly as the source treats them.
-/

/-- `SignalGroupMember` from the source: `number?: string | null` and
`uuid?: string | null` both collapse to `Option String` (`none` models
`null`/`undefined`; JS truthiness of the empty string is handled at use
sites). -/
structure SignalGroupMember where
  number : Option String
  uuid : Option String
deriving DecidableEq

/-- `SignalGroupEntry` from the source. -/
structure SignalGroupEntry where
  id : String
  name : Option String
  isMember : Option Bool
  isBlocked : Option Bool
  members : Option (List SignalGroupMember)
deriving DecidableEq

/-- A membership decision cache value: `{ allowed: boolean; cachedAt: number }`. -/
structure MembershipEntry where
  allowed : Bool
  cachedAt : Nat
deriving DecidableEq

/-- The module-level mutable state of `groups.ts`: the directory snapshot
(`cachedGroups`, `cachedAt`, `cacheAccountKey`) and the membership decision
cache (a JS `Map`, modelled as an insertion-ordered association list). -/
structure GroupsState where
  cachedGroups : Option (List SignalGroupEntry)
  cachedAt : Nat
  cacheAccountKey : String
  membershipCache : List (String × MembershipEntry)
deriving DecidableEq

/-- `GROUP_ID_CACHE_TTL_MS = 5 * 60 * 1000`. -/
def GROUP_ID_CACHE_TTL_MS : Nat := 5 * 60 * 1000

/-- `MEMBERSHIP_CACHE_TTL_MS = 60 * 1000`. -/
def MEMBERSHIP_CACHE_TTL_MS : Nat := 60 * 1000

/-- `buildAccountKey(baseUrl, account)` returns `baseUrl + "|" + (account ?? "")`. -/
def buildAccountKey (baseUrl : String) (account : Option String) : String :=
  baseUrl ++ "|" ++ account.getD ""

/-- JavaScript `String.prototype.endsWith`, modelled on the character list. -/
def jsEndsWith (s suffix : String) : Bool :=
  suffix.data.isSuffixOf s.data

/-- JavaScript `String.prototype.toLowerCase`, modelled as a per-character
lowering of the character list (group ids are ASCII base64). -/
def jsToLowerCase (s : String) : String :=
  String.mk (s.data.map Char.toLower)

/-- JS `Map.prototype.get`: the value stored at the first occurrence of the key. -/
def mapGet (m : List (String × MembershipEntry)) (k : String) : Option MembershipEntry :=
  (m.find? (fun kv => kv.1 == k)).map (fun kv => kv.2)

/-- JS `Map.prototype.set`: replace the value at an existing key in place,
else append a new entry. -/
def mapSet (m : List (String × MembershipEntry)) (k : String) (v : MembershipEntry) :
    List (String × MembershipEntry) :=
  if m.any (fun kv => kv.1 == k) then
    m.map (fun kv => if kv.1 == k then (k, v) else kv)
  else
    m ++ [(k, v)]

/-- The raw value a successful `listGroups` RPC round trip yields: either an
array of group entries or some non-array value. -/
inductive RpcRaw where
  | arr (groups : List SignalGroupEntry)
  | nonArray
deriving DecidableEq

/-- Decode step of `listGroups`: `Array.isArray(result) ? result : []`. -/
def rawToList : RpcRaw → List SignalGroupEntry
  | .arr gs => gs
  | .nonArray => []

/-- The freshness test of the shared directory snapshot:
`cachedGroups && cacheAccountKey === accountKey && now - cachedAt < GROUP_ID_CACHE_TTL_MS`. -/
def directoryFresh (st : GroupsState) (accountKey : String) (now : Nat) : Bool :=
  st.cachedGroups.isSome && st.cacheAccountKey == accountKey &&
    decide (now - st.cachedAt < GROUP_ID_CACHE_TTL_MS)

/-- `getCachedGroups`: return the cached snapshot when fresh (and not forced),
otherwise perform the RPC round trip and replace the snapshot wholesale.
The third component counts RPC calls issued (0 or 1). -/
def getCachedGroups (st : GroupsState) (baseUrl : String) (account : Option String)
    (now : Nat) (forceFresh : Bool) (resp : Except Unit RpcRaw) :
    Except Unit (List SignalGroupEntry) × GroupsState × Nat :=
  if !forceFresh && directoryFresh st (buildAccountKey baseUrl account) now then
    (Except.ok (st.cachedGroups.getD []), st, 0)
  else
    match resp with
    | Except.error e => (Except.error e, st, 1)
    | Except.ok raw =>
        (Except.ok (rawToList raw),
          { st with
              cachedGroups := some (rawToList raw)
              cachedAt := now
              cacheAccountKey := buildAccountKey baseUrl account },
          1)

/-- The resolver's fast path: when a fresh same-key snapshot exists, the id of
an exact (case-sensitive) match in it, else `none`. -/
def resolverCacheHit (st : GroupsState) (accountKey groupId : String) (now : Nat) :
    Option String :=
  match st.cachedGroups with
  | some gs =>
      if st.cacheAccountKey == accountKey && decide (now - st.cachedAt < GROUP_ID_CACHE_TTL_MS) then
        (gs.find? (fun g => g.id == groupId)).map (fun g => g.id)
      else none
  | none => none

/-- Outcome of `resolveSignalGroupId`: the canonical id, or one of the two
descriptive failures (carrying the data interpolated into the thrown
message), or a propagated transport failure. -/
inductive ResolveResult where
  | ok (id : String)
  | notFound (groupId : String) (knownGroups : Nat)
  | ambiguous (groupId : String) (matchCount : Nat)
  | transportError
deriving DecidableEq

/-- `resolveSignalGroupId`: exact match on a fresh cached snapshot first, else
force-fetch and try an exact match, else a case-insensitive scan which
succeeds only on exactly one match. -/
def resolveSignalGroupId (groupId : String) (baseUrl : String) (account : Option String)
    (st : GroupsState) (now : Nat) (resp : Except Unit RpcRaw) :
    ResolveResult × GroupsState × Nat :=
  match resolverCacheHit st (buildAccountKey baseUrl account) groupId now with
  | some id => (ResolveResult.ok id, st, 0)
  | none =>
    match getCachedGroups st baseUrl account now true resp with
    | (Except.error _, st1, n) => (ResolveResult.transportError, st1, n)
    | (Except.ok groups, st1, n) =>
      match groups.find? (fun g => g.id == groupId) with
      | some exact => (ResolveResult.ok exact.id, st1, n)
      | none =>
        match groups.filter (fun g => jsToLowerCase g.id == jsToLowerCase groupId) with
        | [m] => (ResolveResult.ok m.id, st1, n)
        | [] => (ResolveResult.notFound groupId groups.length, st1, n)
        | ms => (ResolveResult.ambiguous groupId ms.length, st1, n)

/-- The discriminated value `parseSignalAllowEntry` produces:
wildcard / phone / uuid (`none` at call sites models an unparsable entry). -/
inductive SignalAllowEntry where
  | any
  | phone (e164 : String)
  | uuid (raw : String)
deriving DecidableEq

/-- `entry.kind === "any"`. -/
def isAnyEntry : SignalAllowEntry → Bool
  | .any => true
  | _ => false

/-- The `requiredPhones` set: the `e164` fields of the parsed phone entries. -/
def phonesOf (parsed : List SignalAllowEntry) : List String :=
  parsed.filterMap fun e => match e with | .phone p => some p | _ => none

/-- The `requiredUuids` set: the `raw` fields of the parsed uuid entries. -/
def uuidsOf (parsed : List SignalAllowEntry) : List String :=
  parsed.filterMap fun e => match e with | .uuid r => some r | _ => none

/-- The first `if` block of the gate's member callback: a truthy `number`
whose normalization is truthy and contained in the phone set. -/
def memberPhoneHit (norm : String → Option String) (phones : List String)
    (number : Option String) : Bool :=
  match number with
  | some num =>
      if num == "" then false
      else
        match norm num with
        | some normalized => normalized != "" && phones.contains normalized
        | none => false
  | none => false

/-- The second `if` block of the gate's member callback: a truthy `uuid`
contained in the uuid set. -/
def memberUuidHit (uuids : List String) (uuid : Option String) : Bool :=
  match uuid with
  | some u => u != "" && uuids.contains u
  | none => false

/-- The member predicate of the gate: phone hit or uuid hit. -/
def memberSatisfies (norm : String → Option String) (phones uuids : List String)
    (m : SignalGroupMember) : Bool :=
  memberPhoneHit norm phones m.number || memberUuidHit uuids m.uuid

/-- The gate's group lookup: exact id match first, else the first group whose
lower-cased id equals the lower-cased query. -/
def findGroup (groups : List SignalGroupEntry) (groupId : String) : Option SignalGroupEntry :=
  match groups.find? (fun g => g.id == groupId) with
  | some g => some g
  | none => groups.find? (fun g => jsToLowerCase g.id == jsToLowerCase groupId)

/-- `membershipCache.set(cacheKey, { allowed, cachedAt: now })`. -/
def writeDecision (st : GroupsState) (cacheKey : String) (allowed : Bool) (now : Nat) :
    GroupsState :=
  { st with membershipCache := mapSet st.membershipCache cacheKey ⟨allowed, now⟩ }

/-- Outcome of the gate: the boolean decision, or a propagated transport failure. -/
inductive GateResult where
  | ok (allowed : Bool)
  | transportError
deriving DecidableEq

/-- The decision logic of the gate once the group list is available: locate
the group (false and cached when absent), short-circuit on a wildcard entry,
else scan the members against the parsed phone/uuid sets; the decision is
always written to the cache. -/
def gateDecide (parse : String → Option SignalAllowEntry) (norm : String → Option String)
    (groupId : String) (requiredNumbers : List String) (cacheKey : String)
    (groups : List SignalGroupEntry) (st : GroupsState) (now : Nat) (rpcCalls : Nat) :
    GateResult × GroupsState × Nat :=
  match findGroup groups groupId with
  | none => (GateResult.ok false, writeDecision st cacheKey false now, rpcCalls)
  | some group =>
    if (requiredNumbers.filterMap parse).any isAnyEntry then
      (GateResult.ok true, writeDecision st cacheKey true now, rpcCalls)
    else
      (GateResult.ok ((group.members.getD []).any (memberSatisfies norm
          (phonesOf (requiredNumbers.filterMap parse))
          (uuidsOf (requiredNumbers.filterMap parse)))),
        writeDecision st cacheKey ((group.members.getD []).any (memberSatisfies norm
          (phonesOf (requiredNumbers.filterMap parse))
          (uuidsOf (requiredNumbers.filterMap parse)))) now,
        rpcCalls)

/-- The gate past its decision-cache check: fetch the group list through the
shared directory cache, then decide; a transport failure propagates. -/
def gateCompute (parse : String → Option SignalAllowEntry) (norm : String → Option String)
    (groupId : String) (requiredNumbers : List String) (baseUrl : String)
    (account : Option String) (cacheKey : String) (st : GroupsState) (now : Nat)
    (resp : Except Unit RpcRaw) : GateResult × GroupsState × Nat :=
  match getCachedGroups st baseUrl account now false resp with
  | (Except.error _, st1, n) => (GateResult.transportError, st1, n)
  | (Except.ok groups, st1, n) =>
      gateDecide parse norm groupId requiredNumbers cacheKey groups st1 now n

/-- The decision-cache freshness test of the gate:
`cached && now - cached.cachedAt < MEMBERSHIP_CACHE_TTL_MS`. -/
def membershipFresh (st : GroupsState) (cacheKey : String) (now : Nat) : Bool :=
  match mapGet st.membershipCache cacheKey with
  | some cached => decide (now - cached.cachedAt < MEMBERSHIP_CACHE_TTL_MS)
  | none => false

/-- `checkGroupHasRequiredMember`: trivially true on an empty requirement
list, else serve a fresh cached decision, else compute one. -/
def checkGroupHasRequiredMember (parse : String → Option SignalAllowEntry)
    (norm : String → Option String) (groupId : String) (requiredNumbers : List String)
    (baseUrl : String) (account : Option String) (st : GroupsState) (now : Nat)
    (resp : Except Unit RpcRaw) : GateResult × GroupsState × Nat :=
  if requiredNumbers.length = 0 then (GateResult.ok true, st, 0)
  else
    match mapGet st.membershipCache (buildAccountKey baseUrl account ++ "|" ++ groupId) with
    | some cached =>
        if now - cached.cachedAt < MEMBERSHIP_CACHE_TTL_MS then
          (GateResult.ok cached.allowed, st, 0)
        else
          gateCompute parse norm groupId requiredNumbers baseUrl account
            (buildAccountKey baseUrl account ++ "|" ++ groupId) st now resp
    | none =>
        gateCompute parse norm groupId requiredNumbers baseUrl account
          (buildAccountKey baseUrl account ++ "|" ++ groupId) st now resp

/-- JS truthiness of the optional `groupId` parameter of the invalidation
hook: `undefined` and the empty string are both falsy. -/
def jsTruthyStr : Option String → Bool
  | some s => s != ""
  | none => false

/-- `invalidateGroupMembershipCache`: the source's `if (groupId)` truthiness
test — a truthy group id deletes every decision entry whose key ends with
`"|" + groupId`; a falsy one (absent or the empty string) clears the whole
decision cache; in both cases the directory snapshot timestamp is reset
to `0`. -/
def invalidateGroupMembershipCache (groupId : Option String) (st : GroupsState) :
    GroupsState :=
  if jsTruthyStr groupId then
    { st with
        membershipCache :=
          st.membershipCache.filter (fun kv => !jsEndsWith kv.1 ("|" ++ groupId.getD ""))
        cachedAt := 0 }
  else { st with membershipCache := [], cachedAt := 0 }

example :
    checkGroupHasRequiredMember (fun _ => none) (fun _ => none) "g" [] "u" none
      ⟨none, 0, "", []⟩ 0 (Except.ok RpcRaw.nonArray) = (GateResult.ok true, ⟨none, 0, "", []⟩, 0) := rfl

example :
    (resolveSignalGroupId "AB" "u" none ⟨none, 0, "", []⟩ 0
      (Except.ok (RpcRaw.arr [⟨"AB", none, none, none, none⟩, ⟨"ab", none, none, none, none⟩]))).1
      = ResolveResult.ok "AB" := by decide

example :
    (resolveSignalGroupId "zz" "u" none ⟨none, 0, "", []⟩ 0
      (Except.ok (RpcRaw.arr [⟨"AB", none, none, none, none⟩]))).1
      = ResolveResult.notFound "zz" 1 := by decide

/-! ### Helper lemmas about the cache structures -/

theorem find?_map_replace (m : List (String × MembershipEntry)) (k : String) (v : MembershipEntry)
    (h : m.any (fun kv => kv.1 == k) = true) :
    (m.map (fun kv => if kv.1 == k then (k, v) else kv)).find? (fun kv => kv.1 == k)
      = some (k, v) := by
  induction m with
  | nil => simp at h
  | cons a t ih =>
    by_cases ha : (a.1 == k) = true
    · simp only [List.map_cons, if_pos ha]
      exact List.find?_cons_of_pos (p := fun kv : String × MembershipEntry => kv.1 == k) _ (by simp)
    · simp only [List.map_cons, if_neg ha]
      rw [List.find?_cons_of_neg (p := fun kv : String × MembershipEntry => kv.1 == k) _ ha]
      simp only [List.any_cons, Bool.or_eq_true] at h
      rcases h with h | h
      · exact absurd h ha
      · exact ih h

theorem find?_append_missing_key (m : List (String × MembershipEntry)) (k : String)
    (v : MembershipEntry) (h : m.any (fun kv => kv.1 == k) = false) :
    (m ++ [(k, v)]).find? (fun kv => kv.1 == k) = some (k, v) := by
  induction m with
  | nil => exact List.find?_cons_of_pos (p := fun kv : String × MembershipEntry => kv.1 == k) _ (by simp)
  | cons a t ih =>
    simp only [List.any_cons, Bool.or_eq_false_iff] at h
    rw [List.cons_append, List.find?_cons_of_neg (p := fun kv : String × MembershipEntry => kv.1 == k) _ (by simp [h.1])]
    exact ih h.2

theorem mapGet_mapSet_self (m : List (String × MembershipEntry)) (k : String)
    (v : MembershipEntry) : mapGet (mapSet m k v) k = some v := by
  cases hb : m.any (fun kv => kv.1 == k) with
  | true =>
    unfold mapGet mapSet
    rw [if_pos hb, find?_map_replace m k v hb]
    rfl
  | false =>
    unfold mapGet mapSet
    rw [if_neg (by simp [hb]), find?_append_missing_key m k v hb]
    rfl

theorem mapGet_writeDecision (st : GroupsState) (cacheKey : String) (b : Bool) (now : Nat) :
    mapGet (writeDecision st cacheKey b now).membershipCache cacheKey = some ⟨b, now⟩ :=
  mapGet_mapSet_self _ _ _

theorem find?_filter_of_imp {α : Type} (l : List α) (p q : α → Bool)
    (h : ∀ x, p x = true → q x = true) : (l.filter q).find? p = l.find? p := by
  induction l with
  | nil => rfl
  | cons a t ih =>
    by_cases hp : p a = true
    · rw [List.find?_cons_of_pos (p := p) _ hp, List.filter_cons, if_pos (h a hp),
        List.find?_cons_of_pos (p := p) _ hp]
    · rw [List.find?_cons_of_neg (p := p) _ hp, List.filter_cons]
      by_cases hq : q a = true
      · rw [if_pos hq, List.find?_cons_of_neg (p := p) _ hp]
        exact ih
      · rw [if_neg hq]
        exact ih

/-! ### Helper lemmas about the gate's control flow -/

theorem checkGroup_eq_compute (parse : String → Option SignalAllowEntry)
    (norm : String → Option String) (groupId : String) (requiredNumbers : List String)
    (baseUrl : String) (account : Option String) (st : GroupsState) (now : Nat)
    (resp : Except Unit RpcRaw) (hne : requiredNumbers ≠ [])
    (hmiss : membershipFresh st (buildAccountKey baseUrl account ++ "|" ++ groupId) now = false) :
    checkGroupHasRequiredMember parse norm groupId requiredNumbers baseUrl account st now resp
      = gateCompute parse norm groupId requiredNumbers baseUrl account
          (buildAccountKey baseUrl account ++ "|" ++ groupId) st now resp := by
  have hlen : ¬(requiredNumbers.length = 0) := by simpa [List.length_eq_zero] using hne
  have hnot : ∀ cached,
      mapGet st.membershipCache (buildAccountKey baseUrl account ++ "|" ++ groupId) = some cached →
      ¬(now - cached.cachedAt < MEMBERSHIP_CACHE_TTL_MS) := by
    intro cached hc
    unfold membershipFresh at hmiss
    rw [hc] at hmiss
    simpa using hmiss
  unfold checkGroupHasRequiredMember
  rw [if_neg hlen]
  split
  · rename_i cached heq
    rw [if_neg (hnot cached heq)]
  · rfl

theorem checkGroup_cache_hit (parse : String → Option SignalAllowEntry)
    (norm : String → Option String) (groupId : String) (requiredNumbers : List String)
    (baseUrl : String) (account : Option String) (st : GroupsState) (now : Nat)
    (resp : Except Unit RpcRaw) (e : MembershipEntry) (hne : requiredNumbers ≠ [])
    (hget : mapGet st.membershipCache (buildAccountKey baseUrl account ++ "|" ++ groupId) = some e)
    (hfresh : now - e.cachedAt < MEMBERSHIP_CACHE_TTL_MS) :
    checkGroupHasRequiredMember parse norm groupId requiredNumbers baseUrl account st now resp
      = (GateResult.ok e.allowed, st, 0) := by
  have hlen : ¬(requiredNumbers.length = 0) := by simpa [List.length_eq_zero] using hne
  unfold checkGroupHasRequiredMember
  rw [if_neg hlen]
  split
  · rename_i cached heq
    rw [hget] at heq
    injection heq with h'
    subst h'
    rw [if_pos hfresh]
  · rename_i heq
    rw [hget] at heq
    cases heq

theorem getCachedGroups_miss (st : GroupsState) (baseUrl : String) (account : Option String)
    (now : Nat) (raw : RpcRaw)
    (hdir : directoryFresh st (buildAccountKey baseUrl account) now = false) :
    getCachedGroups st baseUrl account now false (Except.ok raw)
      = (Except.ok (rawToList raw),
          { st with
              cachedGroups := some (rawToList raw)
              cachedAt := now
              cacheAccountKey := buildAccountKey baseUrl account },
          1) := by
  unfold getCachedGroups
  rw [if_neg (by simp [hdir])]

theorem getCachedGroups_error_resp (st : GroupsState) (baseUrl : String)
    (account : Option String) (now : Nat) (ff : Bool) (resp : Except Unit RpcRaw)
    (e : Unit) (st1 : GroupsState) (n : Nat)
    (h : getCachedGroups st baseUrl account now ff resp = (Except.error e, st1, n)) :
    resp = Except.error () := by
  unfold getCachedGroups at h
  by_cases hc : (!ff && directoryFresh st (buildAccountKey baseUrl account) now) = true
  · rw [if_pos hc] at h
    simp at h
  · rw [if_neg hc] at h
    cases resp with
    | error e' => cases e'; rfl
    | ok raw => simp at h

theorem gateDecide_shape (parse : String → Option SignalAllowEntry)
    (norm : String → Option String) (groupId : String) (requiredNumbers : List String)
    (cacheKey : String) (groups : List SignalGroupEntry) (st : GroupsState)
    (now : Nat) (n : Nat) :
    ∃ b, gateDecide parse norm groupId requiredNumbers cacheKey groups st now n
      = (GateResult.ok b, writeDecision st cacheKey b now, n) := by
  unfold gateDecide
  split
  · exact ⟨false, rfl⟩
  · split
    · exact ⟨true, rfl⟩
    · exact ⟨_, rfl⟩

/-! ### The member predicate, characterised -/

theorem memberPhoneHit_iff (norm : String → Option String) (phones : List String)
    (number : Option String) (hnorm : ∀ s r, norm s = some r → r ≠ "")
    (hnorm0 : norm "" = none) :
    memberPhoneHit norm phones number = true ↔
      ∃ num p, number = some num ∧ norm num = some p ∧ p ∈ phones := by
  cases number with
  | none => simp [memberPhoneHit]
  | some num =>
    by_cases h0 : num = ""
    · subst h0
      simp [memberPhoneHit, hnorm0]
    · cases hv : norm num with
      | none => simp [memberPhoneHit, h0, hv]
      | some p =>
        have hp : p ≠ "" := hnorm num p hv
        simp [memberPhoneHit, h0, hv, bne_iff_ne, hp, List.contains, List.elem_iff]

theorem memberUuidHit_iff (uuids : List String) (uuid : Option String)
    (huuid : ("" : String) ∉ uuids) :
    memberUuidHit uuids uuid = true ↔ ∃ u, uuid = some u ∧ u ∈ uuids := by
  cases uuid with
  | none => simp [memberUuidHit]
  | some u =>
    by_cases h0 : u = ""
    · subst h0
      simp [memberUuidHit, huuid]
    · simp [memberUuidHit, bne_iff_ne, h0, List.contains, List.elem_iff]

theorem memberSatisfies_iff (norm : String → Option String) (phones uuids : List String)
    (m : SignalGroupMember) (hnorm : ∀ s r, norm s = some r → r ≠ "")
    (hnorm0 : norm "" = none) (huuid : ("" : String) ∉ uuids) :
    memberSatisfies norm phones uuids m = true ↔
      ((∃ num p, m.number = some num ∧ norm num = some p ∧ p ∈ phones)
        ∨ (∃ u, m.uuid = some u ∧ u ∈ uuids)) := by
  unfold memberSatisfies
  rw [Bool.or_eq_true, memberPhoneHit_iff norm phones m.number hnorm hnorm0,
    memberUuidHit_iff uuids m.uuid huuid]

theorem memberPhoneHit_nil (norm : String → Option String) (number : Option String) :
    memberPhoneHit norm [] number = false := by
  cases number with
  | none => rfl
  | some num =>
    by_cases h0 : (num == "") = true
    · simp [memberPhoneHit, h0]
    · cases hv : norm num with
      | none => simp [memberPhoneHit, h0, hv]
      | some p => simp [memberPhoneHit, h0, hv, List.contains]

theorem memberUuidHit_nil (uuid : Option String) : memberUuidHit [] uuid = false := by
  cases uuid with
  | none => rfl
  | some u => simp [memberUuidHit, List.contains]

theorem memberSatisfies_nil (norm : String → Option String) (m : SignalGroupMember) :
    memberSatisfies norm [] [] m = false := by
  unfold memberSatisfies
  rw [memberPhoneHit_nil, memberUuidHit_nil]
  rfl

/-! ### Suffix anchoring of the invalidation predicate -/

theorem jsEndsWith_anchored (ak gid g : String) (hlen : gid.length = g.length)
    (h : jsEndsWith (ak ++ "|" ++ gid) ("|" ++ g) = true) : gid = g := by
  unfold jsEndsWith at h
  rw [List.isSuffixOf_iff_suffix] at h
  obtain ⟨t, ht⟩ := h
  rw [String.data_append, String.data_append, String.data_append] at ht
  have ht2 : (t ++ ("|" : String).data) ++ g.data
      = (ak.data ++ ("|" : String).data) ++ gid.data := by
    rw [List.append_assoc t, ht]
  have hlen2 : g.data.length = gid.data.length := hlen.symm
  obtain ⟨-, h3⟩ := List.append_inj' ht2 hlen2
  exact String.ext h3.symm

/-- C5: `invalidateGroupMembershipCache` with a group id (a truthy, i.e.
non-empty, string — base64 group ids are never empty) removes exactly the
decision-cache entries whose key ends with `"|" + groupId` (across all
endpoint/account keys), leaves every other entry unchanged, and resets the
directory snapshot timestamp so that the snapshot is stale at every real
clock reading (any `now ≥ 5 min`); called with no argument it clears the
whole decision cache and marks the snapshot stale the same way. -/
theorem invalidateGroupMembershipCache_spec :
    (∀ (st : GroupsState) (g : String), g ≠ "" →
      (∀ kv, kv ∈ (invalidateGroupMembershipCache (some g) st).membershipCache ↔
        (kv ∈ st.membershipCache ∧ jsEndsWith kv.1 ("|" ++ g) = false))
      ∧ (invalidateGroupMembershipCache (some g) st).cachedAt = 0
      ∧ (invalidateGroupMembershipCache (some g) st).cachedGroups = st.cachedGroups
      ∧ (invalidateGroupMembershipCache (some g) st).cacheAccountKey = st.cacheAccountKey
      ∧ (∀ (accountKey : String) (now : Nat), GROUP_ID_CACHE_TTL_MS ≤ now →
          directoryFresh (invalidateGroupMembershipCache (some g) st) accountKey now = false))
    ∧ (∀ st : GroupsState,
      (invalidateGroupMembershipCache none st).membershipCache = []
      ∧ (invalidateGroupMembershipCache none st).cachedAt = 0
      ∧ (invalidateGroupMembershipCache none st).cachedGroups = st.cachedGroups
      ∧ (∀ (accountKey : String) (now : Nat), GROUP_ID_CACHE_TTL_MS ≤ now →
          directoryFresh (invalidateGroupMembershipCache none st) accountKey now = false)) := by
  constructor
  · intro st g hg
    have htr : jsTruthyStr (some g) = true := by
      simp [jsTruthyStr, bne_iff_ne, hg]
    have hmc : (invalidateGroupMembershipCache (some g) st).membershipCache
        = st.membershipCache.filter (fun kv => !jsEndsWith kv.1 ("|" ++ g)) := by
      unfold invalidateGroupMembershipCache
      rw [if_pos htr]
      rfl
    have hat : (invalidateGroupMembershipCache (some g) st).cachedAt = 0 := by
      unfold invalidateGroupMembershipCache
      rw [if_pos htr]
    have hcg : (invalidateGroupMembershipCache (some g) st).cachedGroups
        = st.cachedGroups := by
      unfold invalidateGroupMembershipCache
      rw [if_pos htr]
    have hak : (invalidateGroupMembershipCache (some g) st).cacheAccountKey
        = st.cacheAccountKey := by
      unfold invalidateGroupMembershipCache
      rw [if_pos htr]
    refine ⟨?_, hat, hcg, hak, ?_⟩
    · intro kv
      rw [hmc, List.mem_filter, Bool.not_eq_true']
    · intro accountKey now hnow
      have h0 : ¬(now - 0 < GROUP_ID_CACHE_TTL_MS) := by
        rw [Nat.sub_zero]
        exact Nat.not_lt.mpr hnow
      unfold directoryFresh
      rw [hat]
      simp [h0]
      intro _ _
      exact hnow
  · intro st
    refine ⟨rfl, rfl, rfl, ?_⟩
    intro accountKey now hnow
    have h0 : ¬(now - 0 < GROUP_ID_CACHE_TTL_MS) := by
      rw [Nat.sub_zero]
      exact Nat.not_lt.mpr hnow
    simp [directoryFresh, invalidateGroupMembershipCache, jsTruthyStr, h0]
    intro _ _
    exact hnow

/-- C9: invalidation by group id is case-sensitive and delimiter-anchored: an
entry keyed by a group id of the same length but different spelling (e.g. a
lower-cased variant of the canonical id) survives `invalidateGroupMembershipCache`,
exactly the keys ending in `"|" + g` are deleted, and the surviving entry keeps
serving its cached boolean with zero RPC calls while it is fresh. -/
theorem invalidateGroupMembershipCache_case_sensitive
    (st : GroupsState) (ak gid g : String) (e : MembershipEntry)
    (hlen : gid.length = g.length) (hne : gid ≠ g)
    (hmem : (ak ++ "|" ++ gid, e) ∈ st.membershipCache) :
    ((ak ++ "|" ++ gid, e) ∈ (invalidateGroupMembershipCache (some g) st).membershipCache)
    ∧ (∀ kv ∈ st.membershipCache, jsEndsWith kv.1 ("|" ++ g) = true →
        kv ∉ (invalidateGroupMembershipCache (some g) st).membershipCache)
    ∧ (∀ (parse : String → Option SignalAllowEntry) (norm : String → Option String)
        (requiredNumbers : List String) (baseUrl : String) (account : Option String)
        (now : Nat) (resp : Except Unit RpcRaw),
        requiredNumbers ≠ [] →
        buildAccountKey baseUrl account = ak →
        mapGet st.membershipCache (ak ++ "|" ++ gid) = some e →
        now - e.cachedAt < MEMBERSHIP_CACHE_TTL_MS →
        checkGroupHasRequiredMember parse norm gid requiredNumbers baseUrl account
            (invalidateGroupMembershipCache (some g) st) now resp
          = (GateResult.ok e.allowed, invalidateGroupMembershipCache (some g) st, 0)) := by
  have hkey : jsEndsWith (ak ++ "|" ++ gid) ("|" ++ g) = false := by
    cases hb : jsEndsWith (ak ++ "|" ++ gid) ("|" ++ g) with
    | false => rfl
    | true => exact absurd (jsEndsWith_anchored ak gid g hlen hb) hne
  have hgne : g ≠ "" := by
    intro h
    apply hne
    subst h
    have h0 : gid.data.length = 0 := hlen
    exact String.ext (List.length_eq_zero.mp h0)
  have htr : jsTruthyStr (some g) = true := by
    simp [jsTruthyStr, bne_iff_ne, hgne]
  have hmc : (invalidateGroupMembershipCache (some g) st).membershipCache
      = st.membershipCache.filter (fun kv => !jsEndsWith kv.1 ("|" ++ g)) := by
    unfold invalidateGroupMembershipCache
    rw [if_pos htr]
    rfl
  refine ⟨?_, ?_, ?_⟩
  · rw [hmc, List.mem_filter]
    exact ⟨hmem, by simp [hkey]⟩
  · intro kv hkv hends hmem'
    rw [hmc, List.mem_filter] at hmem'
    rw [hends] at hmem'
    simp at hmem'
  · intro parse norm requiredNumbers baseUrl account now resp hreq hbuild hmapget hfresh
    have himp : ∀ kv : String × MembershipEntry,
        (kv.1 == ak ++ "|" ++ gid) = true → (!jsEndsWith kv.1 ("|" ++ g)) = true := by
      intro kv hkv
      have h1 : kv.1 = ak ++ "|" ++ gid := by simpa using hkv
      rw [h1]
      simp [hkey]
    have hget' : mapGet (invalidateGroupMembershipCache (some g) st).membershipCache
        (ak ++ "|" ++ gid) = some e := by
      rw [hmc]
      unfold mapGet
      rw [find?_filter_of_imp st.membershipCache
        (fun kv => kv.1 == ak ++ "|" ++ gid) (fun kv => !jsEndsWith kv.1 ("|" ++ g)) himp]
      unfold mapGet at hmapget
      exact hmapget
    exact checkGroup_cache_hit parse norm gid requiredNumbers baseUrl account
      (invalidateGroupMembershipCache (some g) st) now resp e hreq
      (by rw [hbuild]; exact hget') hfresh

/-- C6: with an empty required-entries list, the gate returns `true`
immediately, issues no RPC call, and leaves the state (both caches)
unchanged. -/
theorem checkGroupHasRequiredMember_empty_requirements
    (parse : String → Option SignalAllowEntry) (norm : String → Option String)
    (groupId baseUrl : String) (account : Option String) (st : GroupsState)
    (now : Nat) (resp : Except Unit RpcRaw) :
    checkGroupHasRequiredMember parse norm groupId [] baseUrl account st now resp
      = (GateResult.ok true, st, 0) := rfl

/-! ### Gate claims -/

theorem gateCompute_transport (parse : String → Option SignalAllowEntry)
    (norm : String → Option String) (groupId : String) (requiredNumbers : List String)
    (baseUrl : String) (account : Option String) (cacheKey : String) (st : GroupsState)
    (now : Nat) (resp : Except Unit RpcRaw)
    (h : (gateCompute parse norm groupId requiredNumbers baseUrl account cacheKey st now
        resp).1 = GateResult.transportError) :
    resp = Except.error () := by
  unfold gateCompute at h
  split at h
  · rename_i heq
    exact getCachedGroups_error_resp _ _ _ _ _ _ _ _ _ heq
  · rename_i groups st1 n heq
    obtain ⟨b, hb⟩ := gateDecide_shape parse norm groupId requiredNumbers cacheKey groups
      st1 now n
    rw [hb] at h
    simp at h

/-- C7: when the fetched group list contains no exact or case-insensitive
match for the queried group id, the gate returns `false` and caches that
`false` decision; and the gate produces a transport error only when the RPC
round trip itself failed — "group not found" and "no member match" are plain
`false` results, never errors. -/
theorem checkGroupHasRequiredMember_no_match :
    (∀ (parse : String → Option SignalAllowEntry) (norm : String → Option String)
        (groupId : String) (requiredNumbers : List String) (baseUrl : String)
        (account : Option String) (st : GroupsState) (now : Nat) (resp : Except Unit RpcRaw)
        (gs : List SignalGroupEntry) (st1 : GroupsState) (n : Nat),
      requiredNumbers ≠ [] →
      membershipFresh st (buildAccountKey baseUrl account ++ "|" ++ groupId) now = false →
      getCachedGroups st baseUrl account now false resp = (Except.ok gs, st1, n) →
      findGroup gs groupId = none →
      (checkGroupHasRequiredMember parse norm groupId requiredNumbers baseUrl account st now
          resp).1 = GateResult.ok false
      ∧ mapGet (checkGroupHasRequiredMember parse norm groupId requiredNumbers baseUrl
            account st now resp).2.1.membershipCache
          (buildAccountKey baseUrl account ++ "|" ++ groupId) = some ⟨false, now⟩)
    ∧ (∀ (parse : String → Option SignalAllowEntry) (norm : String → Option String)
        (groupId : String) (requiredNumbers : List String) (baseUrl : String)
        (account : Option String) (st : GroupsState) (now : Nat) (resp : Except Unit RpcRaw),
      (checkGroupHasRequiredMember parse norm groupId requiredNumbers baseUrl account st now
          resp).1 = GateResult.transportError →
      resp = Except.error ()) := by
  constructor
  · intro parse norm groupId requiredNumbers baseUrl account st now resp gs st1 n
      hne hmiss hget hfind
    have h2 : checkGroupHasRequiredMember parse norm groupId requiredNumbers baseUrl account
        st now resp
        = (GateResult.ok false,
            writeDecision st1 (buildAccountKey baseUrl account ++ "|" ++ groupId) false now,
            n) := by
      rw [checkGroup_eq_compute parse norm groupId requiredNumbers baseUrl account st now
        resp hne hmiss]
      simp only [gateCompute, hget, gateDecide, hfind]
    rw [h2]
    exact ⟨rfl, mapGet_writeDecision _ _ _ _⟩
  · intro parse norm groupId requiredNumbers baseUrl account st now resp h
    unfold checkGroupHasRequiredMember at h
    by_cases hlen : requiredNumbers.length = 0
    · rw [if_pos hlen] at h
      simp at h
    · rw [if_neg hlen] at h
      split at h
      · split at h
        · simp at h
        · exact gateCompute_transport parse norm groupId requiredNumbers baseUrl account _
            st now resp h
      · exact gateCompute_transport parse norm groupId requiredNumbers baseUrl account _
          st now resp h

/-- C1: when the gate's decision cache misses, the directory fetch succeeds,
the target group is located (exact-first, case-insensitive fallback), and
every required entry parses to a phone or uuid entry (no wildcard, non-empty
list), the gate returns `true` iff some group member has a phone number that
normalizes into the required-phone set or a uuid contained in the
required-uuid set — and the boolean is written to the decision cache.  The
side conditions on `norm`/`parse` are the collaborator contracts: a
normalizer never returns the empty string (canonical E.164 is non-empty) and
the parser never produces an empty uuid literal. -/
theorem checkGroupHasRequiredMember_match_iff
    (parse : String → Option SignalAllowEntry) (norm : String → Option String)
    (groupId : String) (requiredNumbers : List String) (baseUrl : String)
    (account : Option String) (st : GroupsState) (now : Nat) (resp : Except Unit RpcRaw)
    (gs : List SignalGroupEntry) (st1 : GroupsState) (n : Nat) (g : SignalGroupEntry)
    (hnorm : ∀ s r, norm s = some r → r ≠ "") (hnorm0 : norm "" = none)
    (hpuuid : ∀ s, parse s ≠ some (SignalAllowEntry.uuid ""))
    (hne : requiredNumbers ≠ [])
    (hall : ∀ x ∈ requiredNumbers, ∃ e, parse x = some e ∧ e ≠ SignalAllowEntry.any)
    (hmiss : membershipFresh st (buildAccountKey baseUrl account ++ "|" ++ groupId) now = false)
    (hget : getCachedGroups st baseUrl account now false resp = (Except.ok gs, st1, n))
    (hfind : findGroup gs groupId = some g) :
    ∃ allowed,
      (checkGroupHasRequiredMember parse norm groupId requiredNumbers baseUrl account st now
          resp).1 = GateResult.ok allowed
      ∧ (allowed = true ↔ ∃ m ∈ g.members.getD [],
          (∃ num p, m.number = some num ∧ norm num = some p
              ∧ p ∈ phonesOf (requiredNumbers.filterMap parse))
          ∨ (∃ u, m.uuid = some u ∧ u ∈ uuidsOf (requiredNumbers.filterMap parse)))
      ∧ mapGet (checkGroupHasRequiredMember parse norm groupId requiredNumbers baseUrl
            account st now resp).2.1.membershipCache
          (buildAccountKey baseUrl account ++ "|" ++ groupId) = some ⟨allowed, now⟩ := by
  have hwild : (requiredNumbers.filterMap parse).any isAnyEntry = false := by
    rw [List.any_eq_false]
    intro e he
    rw [List.mem_filterMap] at he
    obtain ⟨x, hx, hpx⟩ := he
    obtain ⟨e', hpe', hne'⟩ := hall x hx
    rw [hpx] at hpe'
    injection hpe' with h'
    subst h'
    intro ha
    cases e with
    | any => exact hne' rfl
    | phone p => simp [isAnyEntry] at ha
    | uuid r => simp [isAnyEntry] at ha
  have huuid : ("" : String) ∉ uuidsOf (requiredNumbers.filterMap parse) := by
    intro hmem
    unfold uuidsOf at hmem
    rw [List.mem_filterMap] at hmem
    obtain ⟨e, he, hee⟩ := hmem
    cases e with
    | any => cases hee
    | phone p => cases hee
    | uuid r =>
      injection hee with h'
      subst h'
      rw [List.mem_filterMap] at he
      obtain ⟨x, hx, hpx⟩ := he
      exact hpuuid x hpx
  have h2 : checkGroupHasRequiredMember parse norm groupId requiredNumbers baseUrl account
      st now resp
      = (GateResult.ok ((g.members.getD []).any (memberSatisfies norm
            (phonesOf (requiredNumbers.filterMap parse))
            (uuidsOf (requiredNumbers.filterMap parse)))),
          writeDecision st1 (buildAccountKey baseUrl account ++ "|" ++ groupId)
            ((g.members.getD []).any (memberSatisfies norm
              (phonesOf (requiredNumbers.filterMap parse))
              (uuidsOf (requiredNumbers.filterMap parse)))) now,
          n) := by
    rw [checkGroup_eq_compute parse norm groupId requiredNumbers baseUrl account st now
      resp hne hmiss]
    simp only [gateCompute, hget, gateDecide, hfind, hwild, Bool.false_eq_true, if_false]
  rw [h2]
  refine ⟨(g.members.getD []).any (memberSatisfies norm
      (phonesOf (requiredNumbers.filterMap parse))
      (uuidsOf (requiredNumbers.filterMap parse))), rfl, ?_, mapGet_writeDecision _ _ _ _⟩
  rw [List.any_eq_true]
  constructor
  · rintro ⟨m, hm, hsat⟩
    exact ⟨m, hm, (memberSatisfies_iff norm _ _ m hnorm hnorm0 huuid).mp hsat⟩
  · rintro ⟨m, hm, hspec⟩
    exact ⟨m, hm, (memberSatisfies_iff norm _ _ m hnorm hnorm0 huuid).mpr hspec⟩

/-- C8: once the target group is located, a wildcard `"*"` among the parsed
required entries makes the gate return `true` regardless of the group's
member list (present, empty or absent), and the `true` decision is still
written to the decision cache. -/
theorem checkGroupHasRequiredMember_wildcard
    (parse : String → Option SignalAllowEntry) (norm : String → Option String)
    (groupId : String) (requiredNumbers : List String) (baseUrl : String)
    (account : Option String) (st : GroupsState) (now : Nat) (resp : Except Unit RpcRaw)
    (gs : List SignalGroupEntry) (st1 : GroupsState) (n : Nat) (g : SignalGroupEntry)
    (x : String) (hx : x ∈ requiredNumbers) (hpx : parse x = some SignalAllowEntry.any)
    (hmiss : membershipFresh st (buildAccountKey baseUrl account ++ "|" ++ groupId) now = false)
    (hget : getCachedGroups st baseUrl account now false resp = (Except.ok gs, st1, n))
    (hfind : findGroup gs groupId = some g) :
    (checkGroupHasRequiredMember parse norm groupId requiredNumbers baseUrl account st now
        resp).1 = GateResult.ok true
    ∧ mapGet (checkGroupHasRequiredMember parse norm groupId requiredNumbers baseUrl
          account st now resp).2.1.membershipCache
        (buildAccountKey baseUrl account ++ "|" ++ groupId) = some ⟨true, now⟩ := by
  have hne : requiredNumbers ≠ [] := by
    intro h
    subst h
    simp at hx
  have hwild : (requiredNumbers.filterMap parse).any isAnyEntry = true := by
    rw [List.any_eq_true]
    exact ⟨SignalAllowEntry.any, List.mem_filterMap.mpr ⟨x, hx, hpx⟩, rfl⟩
  have h2 : checkGroupHasRequiredMember parse norm groupId requiredNumbers baseUrl account
      st now resp
      = (GateResult.ok true,
          writeDecision st1 (buildAccountKey baseUrl account ++ "|" ++ groupId) true now,
          n) := by
    rw [checkGroup_eq_compute parse norm groupId requiredNumbers baseUrl account st now
      resp hne hmiss]
    simp only [gateCompute, hget, gateDecide, hfind, hwild, if_true]
  rw [h2]
  exact ⟨rfl, mapGet_writeDecision _ _ _ _⟩

/-- C10: a non-empty requirement list in which every entry is unparsable does
not degrade into the trivially-true empty-requirement case: once the target
group is located, the gate returns `false` and caches `false`. -/
theorem checkGroupHasRequiredMember_unparsable
    (parse : String → Option SignalAllowEntry) (norm : String → Option String)
    (groupId : String) (requiredNumbers : List String) (baseUrl : String)
    (account : Option String) (st : GroupsState) (now : Nat) (resp : Except Unit RpcRaw)
    (gs : List SignalGroupEntry) (st1 : GroupsState) (n : Nat) (g : SignalGroupEntry)
    (hne : requiredNumbers ≠ [])
    (hnoparse : ∀ x ∈ requiredNumbers, parse x = none)
    (hmiss : membershipFresh st (buildAccountKey baseUrl account ++ "|" ++ groupId) now = false)
    (hget : getCachedGroups st baseUrl account now false resp = (Except.ok gs, st1, n))
    (hfind : findGroup gs groupId = some g) :
    (checkGroupHasRequiredMember parse norm groupId requiredNumbers baseUrl account st now
        resp).1 = GateResult.ok false
    ∧ mapGet (checkGroupHasRequiredMember parse norm groupId requiredNumbers baseUrl
          account st now resp).2.1.membershipCache
        (buildAccountKey baseUrl account ++ "|" ++ groupId) = some ⟨false, now⟩ := by
  have hnil : requiredNumbers.filterMap parse = [] := List.filterMap_eq_nil_iff.mpr hnoparse
  have hfalse : (g.members.getD []).any (memberSatisfies norm (phonesOf []) (uuidsOf []))
      = false := by
    rw [List.any_eq_false]
    intro m hm
    have h0 : memberSatisfies norm (phonesOf []) (uuidsOf []) m = false :=
      memberSatisfies_nil norm m
    rw [h0]
    simp
  have h2 : checkGroupHasRequiredMember parse norm groupId requiredNumbers baseUrl account
      st now resp
      = (GateResult.ok false,
          writeDecision st1 (buildAccountKey baseUrl account ++ "|" ++ groupId) false now,
          n) := by
    rw [checkGroup_eq_compute parse norm groupId requiredNumbers baseUrl account st now
      resp hne hmiss]
    simp only [gateCompute, hget, gateDecide, hfind, hnil, List.any_nil,
      Bool.false_eq_true, if_false, hfalse]
  rw [h2]
  exact ⟨rfl, mapGet_writeDecision _ _ _ _⟩

/-- C4: starting from a state where both caches miss for the key, a first
gate call with a successful RPC response issues exactly one RPC call and
writes its decision; a second call with the same
(endpoint, account, groupId) key made while that decision is younger than
60 seconds returns the first call's cached boolean, performs no RPC call
(whatever response the daemon would have produced), and leaves the state —
both caches — unchanged, so the pair issues exactly one RPC in total. -/
theorem checkGroupHasRequiredMember_cached_pair
    (parse : String → Option SignalAllowEntry) (norm : String → Option String)
    (groupId : String) (requiredNumbers : List String) (baseUrl : String)
    (account : Option String) (st : GroupsState) (now1 now2 : Nat) (raw : RpcRaw)
    (resp2 : Except Unit RpcRaw)
    (hne : requiredNumbers ≠ [])
    (hmiss : membershipFresh st (buildAccountKey baseUrl account ++ "|" ++ groupId) now1 = false)
    (hdir : directoryFresh st (buildAccountKey baseUrl account) now1 = false)
    (hwin : now2 - now1 < MEMBERSHIP_CACHE_TTL_MS) :
    (checkGroupHasRequiredMember parse norm groupId requiredNumbers baseUrl account st now1
        (Except.ok raw)).2.2 = 1
    ∧ ∃ b,
      (checkGroupHasRequiredMember parse norm groupId requiredNumbers baseUrl account st
          now1 (Except.ok raw)).1 = GateResult.ok b
      ∧ checkGroupHasRequiredMember parse norm groupId requiredNumbers baseUrl account
          (checkGroupHasRequiredMember parse norm groupId requiredNumbers baseUrl account
            st now1 (Except.ok raw)).2.1 now2 resp2
        = (GateResult.ok b,
            (checkGroupHasRequiredMember parse norm groupId requiredNumbers baseUrl account
              st now1 (Except.ok raw)).2.1,
            0) := by
  have hget := getCachedGroups_miss st baseUrl account now1 raw hdir
  obtain ⟨b, hb⟩ := gateDecide_shape parse norm groupId requiredNumbers
    (buildAccountKey baseUrl account ++ "|" ++ groupId) (rawToList raw)
    { st with
        cachedGroups := some (rawToList raw)
        cachedAt := now1
        cacheAccountKey := buildAccountKey baseUrl account } now1 1
  have h2 : checkGroupHasRequiredMember parse norm groupId requiredNumbers baseUrl account
      st now1 (Except.ok raw)
      = (GateResult.ok b,
          writeDecision
            { st with
                cachedGroups := some (rawToList raw)
                cachedAt := now1
                cacheAccountKey := buildAccountKey baseUrl account }
            (buildAccountKey baseUrl account ++ "|" ++ groupId) b now1,
          1) := by
    rw [checkGroup_eq_compute parse norm groupId requiredNumbers baseUrl account st now1
      (Except.ok raw) hne hmiss]
    simp only [gateCompute, hget]
    exact hb
  rw [h2]
  refine ⟨rfl, b, rfl, ?_⟩
  exact checkGroup_cache_hit parse norm groupId requiredNumbers baseUrl account _ now2
    resp2 ⟨b, now1⟩ hne (mapGet_writeDecision _ _ _ _) hwin

/-! ### Resolver claims -/

/-- C2: when the resolver's zero-cost cache path does not hit and the fetched
group list contains exactly one case-insensitive match for the query, the
resolver returns that group's stored (canonical-case) id, whatever the
query's casing; and when a fresh same-key cached snapshot contains an exact
(case-sensitive) match, that id is returned with the state untouched and
zero RPC calls. -/
theorem resolveSignalGroupId_unique_ci :
    (∀ (groupId baseUrl : String) (account : Option String) (st : GroupsState)
        (now : Nat) (raw : RpcRaw) (g : SignalGroupEntry),
      resolverCacheHit st (buildAccountKey baseUrl account) groupId now = none →
      (rawToList raw).filter (fun x => jsToLowerCase x.id == jsToLowerCase groupId) = [g] →
      (resolveSignalGroupId groupId baseUrl account st now (Except.ok raw)).1
        = ResolveResult.ok g.id)
    ∧ (∀ (groupId baseUrl : String) (account : Option String) (st : GroupsState)
        (now : Nat) (resp : Except Unit RpcRaw) (gs : List SignalGroupEntry)
        (g : SignalGroupEntry),
      st.cachedGroups = some gs →
      st.cacheAccountKey = buildAccountKey baseUrl account →
      now - st.cachedAt < GROUP_ID_CACHE_TTL_MS →
      gs.find? (fun x => x.id == groupId) = some g →
      resolveSignalGroupId groupId baseUrl account st now resp
        = (ResolveResult.ok g.id, st, 0)) := by
  constructor
  · intro groupId baseUrl account st now raw g hmiss hfilter
    have hgetf : getCachedGroups st baseUrl account now true (Except.ok raw)
        = (Except.ok (rawToList raw),
            { st with
                cachedGroups := some (rawToList raw)
                cachedAt := now
                cacheAccountKey := buildAccountKey baseUrl account },
            1) := by
      unfold getCachedGroups
      rw [if_neg (by simp)]
    cases hex : (rawToList raw).find? (fun x => x.id == groupId) with
    | some e =>
      have heid : e.id = groupId := by simpa using List.find?_some hex
      have hein : e ∈ (rawToList raw).filter
          (fun x => jsToLowerCase x.id == jsToLowerCase groupId) := by
        rw [List.mem_filter]
        refine ⟨List.mem_of_find?_eq_some hex, ?_⟩
        rw [heid]
        simp
      rw [hfilter, List.mem_singleton] at hein
      subst hein
      simp only [resolveSignalGroupId, hmiss, hgetf, hex]
    | none =>
      simp only [resolveSignalGroupId, hmiss, hgetf, hex, hfilter]
  · intro groupId baseUrl account st now resp gs g hcg hkey hfresh hfind
    have hcond : (st.cacheAccountKey == buildAccountKey baseUrl account
        && decide (now - st.cachedAt < GROUP_ID_CACHE_TTL_MS)) = true := by
      rw [hkey]
      simp [hfresh]
    have hhit : resolverCacheHit st (buildAccountKey baseUrl account) groupId now
        = some g.id := by
      simp only [resolverCacheHit, hcg]
      rw [if_pos hcond, hfind]
      rfl
    simp only [resolveSignalGroupId, hhit]

/-- C3 counterexample: with an empty cache, the query `"AB"` against a
fetched directory `["AB", "ab"]` has two case-insensitive matches, yet
`resolveSignalGroupId` succeeds with the exact match instead of failing with
an Ambiguous error — refuting the claim that the resolver fails whenever two
or more case-insensitive matches exist. -/
theorem resolveSignalGroupId_ambiguous_cex :
    (((rawToList (RpcRaw.arr [⟨"AB", none, none, none, none⟩,
          ⟨"ab", none, none, none, none⟩])).filter
        (fun x => jsToLowerCase x.id == jsToLowerCase "AB")).length = 2)
    ∧ (resolveSignalGroupId "AB" "u" none ⟨none, 0, "", []⟩ 0
        (Except.ok (RpcRaw.arr [⟨"AB", none, none, none, none⟩,
          ⟨"ab", none, none, none, none⟩]))).1
      = ResolveResult.ok "AB"
    ∧ ∀ k, (resolveSignalGroupId "AB" "u" none ⟨none, 0, "", []⟩ 0
        (Except.ok (RpcRaw.arr [⟨"AB", none, none, none, none⟩,
          ⟨"ab", none, none, none, none⟩]))).1
      ≠ ResolveResult.ambiguous "AB" k := by
  refine ⟨by decide, by decide, ?_⟩
  intro k h
  have h1 : (resolveSignalGroupId "AB" "u" none ⟨none, 0, "", []⟩ 0
      (Except.ok (RpcRaw.arr [⟨"AB", none, none, none, none⟩,
        ⟨"ab", none, none, none, none⟩]))).1 = ResolveResult.ok "AB" := by decide
  rw [h1] at h
  cases h

/-- C3 (amended): on the fetch path, the resolver fails with a NotFound error
carrying the scanned-group count whenever the query has zero case-insensitive
matches, and fails with an Ambiguous error carrying the match count whenever
it has two or more case-insensitive matches none of which equals the query
exactly; when an exact match exists, its id is returned even if other groups
match case-insensitively. -/
theorem resolveSignalGroupId_failure_modes :
    (∀ (groupId baseUrl : String) (account : Option String) (st : GroupsState)
        (now : Nat) (raw : RpcRaw),
      resolverCacheHit st (buildAccountKey baseUrl account) groupId now = none →
      (rawToList raw).filter (fun x => jsToLowerCase x.id == jsToLowerCase groupId) = [] →
      (resolveSignalGroupId groupId baseUrl account st now (Except.ok raw)).1
        = ResolveResult.notFound groupId (rawToList raw).length)
    ∧ (∀ (groupId baseUrl : String) (account : Option String) (st : GroupsState)
        (now : Nat) (raw : RpcRaw),
      resolverCacheHit st (buildAccountKey baseUrl account) groupId now = none →
      (rawToList raw).find? (fun x => x.id == groupId) = none →
      2 ≤ ((rawToList raw).filter
          (fun x => jsToLowerCase x.id == jsToLowerCase groupId)).length →
      (resolveSignalGroupId groupId baseUrl account st now (Except.ok raw)).1
        = ResolveResult.ambiguous groupId
            ((rawToList raw).filter
              (fun x => jsToLowerCase x.id == jsToLowerCase groupId)).length)
    ∧ (∀ (groupId baseUrl : String) (account : Option String) (st : GroupsState)
        (now : Nat) (raw : RpcRaw) (e : SignalGroupEntry),
      resolverCacheHit st (buildAccountKey baseUrl account) groupId now = none →
      (rawToList raw).find? (fun x => x.id == groupId) = some e →
      (resolveSignalGroupId groupId baseUrl account st now (Except.ok raw)).1
        = ResolveResult.ok e.id) := by
  have hgetf : ∀ (baseUrl : String) (account : Option String) (st : GroupsState)
      (now : Nat) (raw : RpcRaw),
      getCachedGroups st baseUrl account now true (Except.ok raw)
      = (Except.ok (rawToList raw),
          { st with
              cachedGroups := some (rawToList raw)
              cachedAt := now
              cacheAccountKey := buildAccountKey baseUrl account },
          1) := by
    intro baseUrl account st now raw
    unfold getCachedGroups
    rw [if_neg (by simp)]
  refine ⟨?_, ?_, ?_⟩
  · intro groupId baseUrl account st now raw hmiss hfilter
    have hex : (rawToList raw).find? (fun x => x.id == groupId) = none := by
      cases hex : (rawToList raw).find? (fun x => x.id == groupId) with
      | none => rfl
      | some e =>
        have heid : e.id = groupId := by simpa using List.find?_some hex
        have hein : e ∈ (rawToList raw).filter
            (fun x => jsToLowerCase x.id == jsToLowerCase groupId) := by
          rw [List.mem_filter]
          refine ⟨List.mem_of_find?_eq_some hex, ?_⟩
          rw [heid]
          simp
        rw [hfilter] at hein
        simp at hein
    simp only [resolveSignalGroupId, hmiss, hgetf, hex, hfilter]
  · intro groupId baseUrl account st now raw hmiss hex hlen
    cases hfl : (rawToList raw).filter
        (fun x => jsToLowerCase x.id == jsToLowerCase groupId) with
    | nil =>
      rw [hfl] at hlen
      simp at hlen
    | cons m rest =>
      cases rest with
      | nil =>
        rw [hfl] at hlen
        simp at hlen
      | cons m2 rest2 =>
        simp only [resolveSignalGroupId, hmiss, hgetf, hex, hfl]
  · intro groupId baseUrl account st now raw e hmiss hex
    simp only [resolveSignalGroupId, hmiss, hgetf, hex]

/-! ### Concrete fixtures for the witnesses -/

/-- Fixture: a concrete allow-entry parser for the witnesses. -/
def wparse : String → Option SignalAllowEntry := fun s =>
  if s = "*" then some SignalAllowEntry.any
  else if s = "+15551111111" then some (SignalAllowEntry.phone "+15551111111")
  else if s = "uuid-1" then some (SignalAllowEntry.uuid "uuid-1")
  else none

/-- Fixture: a concrete phone normalizer for the witnesses. -/
def wnorm : String → Option String := fun s =>
  if s = "+15551111111" then some "+15551111111" else none

/-- Fixture: a directory group with one member. -/
def wgroup : SignalGroupEntry :=
  ⟨"abc123", some "Group abc123", some true, some false,
    some [⟨some "+15551111111", some "uuid-1"⟩]⟩

/-- Fixture: a group with an empty member list. -/
def wgroupEmpty : SignalGroupEntry := ⟨"g2", none, none, none, some []⟩

/-- Fixture: the initial module state. -/
def emptyState : GroupsState := ⟨none, 0, "", []⟩

/-- Fixture: the state right after fetching `[wgroup]` at time 0 for
endpoint `"u"` with no account. -/
def fetchedState : GroupsState := ⟨some [wgroup], 0, "u|", []⟩

theorem wnorm_ne_empty (s r : String) (h : wnorm s = some r) : r ≠ "" := by
  unfold wnorm at h
  split at h
  · injection h with h'
    subst h'
    decide
  · cases h

theorem wparse_no_empty_uuid (s : String) :
    wparse s ≠ some (SignalAllowEntry.uuid "") := by
  unfold wparse
  split
  · decide
  · split
    · decide
    · split
      · decide
      · decide

/-- C1 witness: the gate theorem instantiated at a concrete directory,
parser, normalizer and requirement list. -/
theorem checkGroupHasRequiredMember_match_iff_witness :
    ∃ allowed,
      (checkGroupHasRequiredMember wparse wnorm "abc123" ["+15551111111"] "u" none
          emptyState 0 (Except.ok (RpcRaw.arr [wgroup]))).1 = GateResult.ok allowed
      ∧ (allowed = true ↔ ∃ m ∈ wgroup.members.getD [],
          (∃ num p, m.number = some num ∧ wnorm num = some p
              ∧ p ∈ phonesOf (["+15551111111"].filterMap wparse))
          ∨ (∃ u, m.uuid = some u ∧ u ∈ uuidsOf (["+15551111111"].filterMap wparse)))
      ∧ mapGet (checkGroupHasRequiredMember wparse wnorm "abc123" ["+15551111111"] "u" none
            emptyState 0 (Except.ok (RpcRaw.arr [wgroup]))).2.1.membershipCache
          (buildAccountKey "u" none ++ "|" ++ "abc123") = some ⟨allowed, 0⟩ :=
  checkGroupHasRequiredMember_match_iff wparse wnorm "abc123" ["+15551111111"] "u" none
    emptyState 0 (Except.ok (RpcRaw.arr [wgroup])) [wgroup] fetchedState 1 wgroup
    wnorm_ne_empty rfl wparse_no_empty_uuid (by decide)
    (by
      intro x hx
      rw [List.mem_singleton] at hx
      subst hx
      exact ⟨SignalAllowEntry.phone "+15551111111", by decide, by decide⟩)
    (by decide) rfl (by decide)

/-- C4 witness: the caching theorem instantiated; the second call happens
30 seconds after the first and is fed a transport failure it never sees. -/
theorem checkGroupHasRequiredMember_cached_pair_witness :
    (checkGroupHasRequiredMember wparse wnorm "abc123" ["+15551111111"] "u" none emptyState
        0 (Except.ok (RpcRaw.arr [wgroup]))).2.2 = 1
    ∧ ∃ b,
      (checkGroupHasRequiredMember wparse wnorm "abc123" ["+15551111111"] "u" none
          emptyState 0 (Except.ok (RpcRaw.arr [wgroup]))).1 = GateResult.ok b
      ∧ checkGroupHasRequiredMember wparse wnorm "abc123" ["+15551111111"] "u" none
          (checkGroupHasRequiredMember wparse wnorm "abc123" ["+15551111111"] "u" none
            emptyState 0 (Except.ok (RpcRaw.arr [wgroup]))).2.1 30000 (Except.error ())
        = (GateResult.ok b,
            (checkGroupHasRequiredMember wparse wnorm "abc123" ["+15551111111"] "u" none
              emptyState 0 (Except.ok (RpcRaw.arr [wgroup]))).2.1,
            0) :=
  checkGroupHasRequiredMember_cached_pair wparse wnorm "abc123" ["+15551111111"] "u" none
    emptyState 0 30000 (RpcRaw.arr [wgroup]) (Except.error ())
    (by decide) (by decide) (by decide) (by decide)

/-- C7 witness: the no-match conjunct at a directory without the queried
group, and the transport conjunct at a failing RPC response. -/
theorem checkGroupHasRequiredMember_no_match_witness :
    ((checkGroupHasRequiredMember wparse wnorm "nonexistent" ["+15551111111"] "u" none
        emptyState 0 (Except.ok (RpcRaw.arr [wgroup]))).1 = GateResult.ok false
      ∧ mapGet (checkGroupHasRequiredMember wparse wnorm "nonexistent" ["+15551111111"] "u"
            none emptyState 0 (Except.ok (RpcRaw.arr [wgroup]))).2.1.membershipCache
          (buildAccountKey "u" none ++ "|" ++ "nonexistent") = some ⟨false, 0⟩)
    ∧ (Except.error () : Except Unit RpcRaw) = Except.error () :=
  ⟨checkGroupHasRequiredMember_no_match.1 wparse wnorm "nonexistent" ["+15551111111"] "u"
      none emptyState 0 (Except.ok (RpcRaw.arr [wgroup])) [wgroup] fetchedState 1
      (by decide) (by decide) rfl (by decide),
   checkGroupHasRequiredMember_no_match.2 wparse wnorm "abc123" ["+15551111111"] "u" none
      emptyState 0 (Except.error ()) (by decide)⟩

/-- C8 witness: wildcard requirement against a group with an empty member
list. -/
theorem checkGroupHasRequiredMember_wildcard_witness :
    (checkGroupHasRequiredMember wparse wnorm "g2" ["*"] "u" none emptyState 0
        (Except.ok (RpcRaw.arr [wgroupEmpty]))).1 = GateResult.ok true
    ∧ mapGet (checkGroupHasRequiredMember wparse wnorm "g2" ["*"] "u" none emptyState 0
          (Except.ok (RpcRaw.arr [wgroupEmpty]))).2.1.membershipCache
        (buildAccountKey "u" none ++ "|" ++ "g2") = some ⟨true, 0⟩ :=
  checkGroupHasRequiredMember_wildcard wparse wnorm "g2" ["*"] "u" none emptyState 0
    (Except.ok (RpcRaw.arr [wgroupEmpty])) [wgroupEmpty]
    ⟨some [wgroupEmpty], 0, "u|", []⟩ 1 wgroupEmpty "*"
    (by decide) (by decide) (by decide) rfl (by decide)

/-- C10 witness: a requirement list whose only entry is unparsable. -/
theorem checkGroupHasRequiredMember_unparsable_witness :
    (checkGroupHasRequiredMember wparse wnorm "abc123" ["zzz"] "u" none emptyState 0
        (Except.ok (RpcRaw.arr [wgroup]))).1 = GateResult.ok false
    ∧ mapGet (checkGroupHasRequiredMember wparse wnorm "abc123" ["zzz"] "u" none emptyState
          0 (Except.ok (RpcRaw.arr [wgroup]))).2.1.membershipCache
        (buildAccountKey "u" none ++ "|" ++ "abc123") = some ⟨false, 0⟩ :=
  checkGroupHasRequiredMember_unparsable wparse wnorm "abc123" ["zzz"] "u" none emptyState
    0 (Except.ok (RpcRaw.arr [wgroup])) [wgroup] fetchedState 1 wgroup
    (by decide) (by decide) (by decide) rfl (by decide)

/-- C2 witness: a lower/upper-mangled query resolved through the fetch path,
and a cache hit resolved with zero RPC calls against an unusable response. -/
theorem resolveSignalGroupId_unique_ci_witness :
    (resolveSignalGroupId "ABC123DEF=" "u" none emptyState 0
        (Except.ok (RpcRaw.arr [⟨"AbC123dEf=", none, none, none, none⟩]))).1
      = ResolveResult.ok "AbC123dEf="
    ∧ resolveSignalGroupId "abc123" "u" none fetchedState 0 (Except.ok RpcRaw.nonArray)
      = (ResolveResult.ok "abc123", fetchedState, 0) :=
  ⟨resolveSignalGroupId_unique_ci.1 "ABC123DEF=" "u" none emptyState 0
      (RpcRaw.arr [⟨"AbC123dEf=", none, none, none, none⟩])
      ⟨"AbC123dEf=", none, none, none, none⟩ (by decide) (by decide),
   resolveSignalGroupId_unique_ci.2 "abc123" "u" none fetchedState 0
      (Except.ok RpcRaw.nonArray) [wgroup] wgroup rfl rfl (by decide) (by decide)⟩

/-- C3 witness: the amended failure modes instantiated — zero matches, two
case-insensitive matches without an exact match, and an exact match among
case-insensitive ambiguity. -/
theorem resolveSignalGroupId_failure_modes_witness :
    (resolveSignalGroupId "zz" "u" none emptyState 0
        (Except.ok (RpcRaw.arr [⟨"AB", none, none, none, none⟩]))).1
      = ResolveResult.notFound "zz"
          (rawToList (RpcRaw.arr [⟨"AB", none, none, none, none⟩])).length
    ∧ (resolveSignalGroupId "aB" "u" none emptyState 0
        (Except.ok (RpcRaw.arr [⟨"AB", none, none, none, none⟩,
          ⟨"ab", none, none, none, none⟩]))).1
      = ResolveResult.ambiguous "aB"
          ((rawToList (RpcRaw.arr [⟨"AB", none, none, none, none⟩,
              ⟨"ab", none, none, none, none⟩])).filter
            (fun x => jsToLowerCase x.id == jsToLowerCase "aB")).length
    ∧ (resolveSignalGroupId "ab" "u" none emptyState 0
        (Except.ok (RpcRaw.arr [⟨"ab", none, none, none, none⟩,
          ⟨"aB", none, none, none, none⟩]))).1
      = ResolveResult.ok (⟨"ab", none, none, none, none⟩ : SignalGroupEntry).id :=
  ⟨resolveSignalGroupId_failure_modes.1 "zz" "u" none emptyState 0
      (RpcRaw.arr [⟨"AB", none, none, none, none⟩]) (by decide) (by decide),
   resolveSignalGroupId_failure_modes.2.1 "aB" "u" none emptyState 0
      (RpcRaw.arr [⟨"AB", none, none, none, none⟩, ⟨"ab", none, none, none, none⟩])
      (by decide) (by decide) (by decide),
   resolveSignalGroupId_failure_modes.2.2 "ab" "u" none emptyState 0
      (RpcRaw.arr [⟨"ab", none, none, none, none⟩, ⟨"aB", none, none, none, none⟩])
      ⟨"ab", none, none, none, none⟩ (by decide) (by decide)⟩

/-- Fixture: a state with decisions cached for two groups under one
endpoint/account key, plus a fresh directory snapshot. -/
def stInv : GroupsState :=
  ⟨some [wgroup], 3, "u|a", [("u|a|g1", ⟨true, 5⟩), ("u|a|g2", ⟨false, 7⟩)]⟩

/-- C5 witness: the invalidation frame theorem instantiated at a two-entry
cache, with the staleness conjuncts applied at `now = 5 min`. -/
theorem invalidateGroupMembershipCache_spec_witness :
    (("u|a|g2", (⟨false, 7⟩ : MembershipEntry)) ∈
        (invalidateGroupMembershipCache (some "g1") stInv).membershipCache
      ↔ (("u|a|g2", (⟨false, 7⟩ : MembershipEntry)) ∈ stInv.membershipCache
          ∧ jsEndsWith "u|a|g2" ("|" ++ "g1") = false))
    ∧ directoryFresh (invalidateGroupMembershipCache (some "g1") stInv) "u|a"
        GROUP_ID_CACHE_TTL_MS = false
    ∧ directoryFresh (invalidateGroupMembershipCache none stInv) "u|a"
        GROUP_ID_CACHE_TTL_MS = false :=
  ⟨(invalidateGroupMembershipCache_spec.1 stInv "g1" (by decide)).1 ("u|a|g2", ⟨false, 7⟩),
   (invalidateGroupMembershipCache_spec.1 stInv "g1" (by decide)).2.2.2.2 "u|a" GROUP_ID_CACHE_TTL_MS
     (le_refl _),
   (invalidateGroupMembershipCache_spec.2 stInv).2.2.2 "u|a" GROUP_ID_CACHE_TTL_MS
     (le_refl _)⟩

/-- Fixture: a single cached decision keyed by the mixed-case group id
`"Gx"`. -/
def stCase : GroupsState := ⟨none, 0, "", [("u|a|Gx", ⟨true, 0⟩)]⟩

/-- C9 witness: invalidating the lower-cased variant `"gx"` leaves the entry
keyed by `"Gx"` in place and it keeps answering from the cache. -/
theorem invalidateGroupMembershipCache_case_sensitive_witness :
    (("u|a" ++ "|" ++ "Gx", (⟨true, 0⟩ : MembershipEntry)) ∈
        (invalidateGroupMembershipCache (some "gx") stCase).membershipCache)
    ∧ (∀ kv ∈ stCase.membershipCache, jsEndsWith kv.1 ("|" ++ "gx") = true →
        kv ∉ (invalidateGroupMembershipCache (some "gx") stCase).membershipCache)
    ∧ (∀ (parse : String → Option SignalAllowEntry) (norm : String → Option String)
        (requiredNumbers : List String) (baseUrl : String) (account : Option String)
        (now : Nat) (resp : Except Unit RpcRaw),
        requiredNumbers ≠ [] →
        buildAccountKey baseUrl account = "u|a" →
        mapGet stCase.membershipCache ("u|a" ++ "|" ++ "Gx")
          = some (⟨true, 0⟩ : MembershipEntry) →
        now - (⟨true, 0⟩ : MembershipEntry).cachedAt < MEMBERSHIP_CACHE_TTL_MS →
        checkGroupHasRequiredMember parse norm "Gx" requiredNumbers baseUrl account
            (invalidateGroupMembershipCache (some "gx") stCase) now resp
          = (GateResult.ok (⟨true, 0⟩ : MembershipEntry).allowed,
              invalidateGroupMembershipCache (some "gx") stCase, 0)) :=
  invalidateGroupMembershipCache_case_sensitive stCase "u|a" "Gx" "gx" ⟨true, 0⟩
    (by decide) (by decide) (by decide)
